import Mathlib

set_option maxRecDepth 4000

namespace SkylightSync

/-!
Shallow embedding of the SkylightSync repository core
(src/icloud_scraper.py, src/skylight_sync.py, src/email_sender.py).

Python dicts are modelled as insertion-ordered association lists over
String keys; timestamps as Nat; the md5 digest and the HTTP fetch are
passed in as function parameters (they are external effects); the
filesystem state relevant to the claims (the two JSON store files and
the two lock files) is an explicit record.
-/

/-! ### Association lists modelling Python dicts (insertion ordered, in-place replacement) -/

def lookupA {α : Type} : List (String × α) → String → Option α
  | [], _ => none
  | (k', v) :: rest, k => if k' = k then some v else lookupA rest k

def insertA {α : Type} : List (String × α) → String → α → List (String × α)
  | [], k, v => [(k, v)]
  | (k', v') :: rest, k, v =>
      if k' = k then (k, v) :: rest else (k', v') :: insertA rest k v

def keysA {α : Type} (l : List (String × α)) : List String := l.map Prod.fst

def countA {α : Type} (l : List (String × α)) (k : String) : Nat :=
  (l.filter (fun p => p.1 = k)).length

/-! ### normalize_url (icloud_scraper.py, lines 57-72)

The Python code calls urllib.parse.urlparse and takes `.path`, with a bare
`except` falling back to the raw URL.  The relevant CPython urlsplit
behaviour is modelled here on `List Char`:
 1. tab, CR and LF bytes are removed;
 2. a scheme `alpha (alphanum|+|-|.)* :` is stripped;
 3. if the remainder starts with `//`, the netloc extends to the next
    `/`, `?` or `#`; a netloc containing `[` without `]` (or vice versa)
    raises ValueError ("Invalid IPv6 URL") - modelled as `none`;
 4. the fragment is everything from the first `#`, the query everything
    from the first `?` of what remains; the path is what is left.
-/

def removeUnsafe (s : List Char) : List Char :=
  s.filter (fun c => !(c = '\t' || c = '\r' || c = '\n'))

def scheme_char (c : Char) : Bool :=
  c.isAlpha || c.isDigit || c = '+' || c = '-' || c = '.'

/-- Scan the characters after the leading alpha for a scheme terminator `:`;
`none` when a non-scheme character or the end of the string is reached first. -/
def schemeRest : List Char → Option (List Char)
  | [] => none
  | c :: cs => if c = ':' then some cs else if scheme_char c then schemeRest cs else none

def dropScheme (s : List Char) : List Char :=
  match s with
  | [] => []
  | c :: cs => if c.isAlpha then (schemeRest cs).getD (c :: cs) else c :: cs

/-- Split off the netloc: everything up to the next `/`, `?` or `#`.
Returns (netloc, remainder starting at the delimiter). -/
def splitNetloc : List Char → List Char × List Char
  | [] => ([], [])
  | c :: cs =>
      if c = '/' || c = '?' || c = '#' then ([], c :: cs)
      else
        let p := splitNetloc cs
        (c :: p.1, p.2)

def takeUntil (sep : Char) : List Char → List Char
  | [] => []
  | c :: cs => if c = sep then [] else c :: takeUntil sep cs

/-- Path component after the fragment split (first `#`) and query split (first `?`). -/
def pathOf (r : List Char) : List Char := takeUntil '?' (takeUntil '#' r)

/-- CPython urlsplit path extraction; `none` models the ValueError raised on an
unbalanced bracket in the netloc, which the Python caller turns into the
raw-URL fallback. -/
def urlparse_path (s0 : List Char) : Option (List Char) :=
  let s1 := dropScheme (removeUnsafe s0)
  if s1.take 2 = ['/', '/'] then
    let n := splitNetloc (s1.drop 2)
    if (n.1.contains '[' != n.1.contains ']') then none
    else some (pathOf n.2)
  else some (pathOf s1)

def lstripSlash : List Char → List Char
  | [] => []
  | c :: cs => if c = '/' then lstripSlash cs else c :: cs

/-- normalize_url: path component of the locator with leading slashes stripped;
on a parse error the raw locator itself. -/
def normalize_url (url : String) : String :=
  match urlparse_path url.data with
  | some p => String.mk (lstripSlash p)
  | none => url

/-! ### Data model: the two persisted dedup mappings (icloud_scraper.py) -/

/-- Value of a processed_urls entry (icloud_scraper.py, mark_url_processed).
processed_at is a Nat timestamp; photo_hash is None for filtered non-media. -/
structure UrlRecord where
  photo_hash : Option String
  original_url : String
  processed_at : Nat
deriving DecidableEq

/-- Value of a processed_photos entry.  The url field is optional because the
migration step checks membership of the key (migrate_existing_urls); records
written by scrape_photos always carry a url.  timestamp is a Nat. -/
structure PhotoRecord where
  filename : String
  timestamp : Nat
  url : Option String
  emailed : Bool
deriving DecidableEq

/-- The in-memory dedup store of ICloudPhotoScraper: processed_urls keyed by
normalized identity, processed_photos keyed by content hash. -/
structure Store where
  processed_urls : List (String × UrlRecord)
  processed_photos : List (String × PhotoRecord)
deriving DecidableEq

def is_url_processed (st : Store) (url : String) : Bool :=
  (lookupA st.processed_urls (normalize_url url)).isSome

def mark_url_processed (now : Nat) (st : Store) (url : String) (h : Option String) : Store :=
  { st with processed_urls := insertA st.processed_urls (normalize_url url) ⟨h, url, now⟩ }

/-! ### migrate_existing_urls (icloud_scraper.py, lines 88-100) -/

/-- Loop body of migrate_existing_urls: for every photo record carrying a url,
mark that url processed with the photo hash. -/
def migrate_fold (now : Nat) : List (String × PhotoRecord) → Store → Store
  | [], st => st
  | (h, pd) :: rest, st =>
      match pd.url with
      | some u => migrate_fold now rest (mark_url_processed now st u (some h))
      | none => migrate_fold now rest st

/-- migrate_existing_urls: runs only when processed_urls is empty and
processed_photos is not. -/
def migrate_existing_urls (now : Nat) (st : Store) : Store :=
  if st.processed_urls.isEmpty && !st.processed_photos.isEmpty then
    migrate_fold now st.processed_photos st
  else st

/-- Guard worded as in the migration claim (the refinement comparison point):
the hash-keyed store is empty and the locator records already contain embedded
hash links.  Compare with the guard of migrate_existing_urls. -/
def claim_migration_guard (st : Store) : Bool :=
  st.processed_photos.isEmpty && st.processed_urls.any (fun p => p.2.photo_hash.isSome)

/-! ### Content classification (icloud_scraper.py, lines 331-343) -/

def toLowerL (s : List Char) : List Char := s.map Char.toLower

/-- Does the needle match at the front of the haystack. -/
def matchesAt : List Char → List Char → Bool
  | [], _ => true
  | _ :: _, [] => false
  | n :: ns, h :: hs => n = h && matchesAt ns hs

/-- Substring containment, as the Python `in` operator on str. -/
def containsSub (hay needle : List Char) : Bool :=
  match hay with
  | [] => needle.isEmpty
  | _ :: t => matchesAt needle hay || containsSub t needle

def strContains (hay needle : String) : Bool := containsSub hay.data needle.data

def lowerStr (s : String) : String := String.mk (toLowerL s.data)

def video_content_types : List String := ["video/", "mp4", "mov", "avi", "wmv", "flv", "webm"]

def video_exts : List String := [".mp4", ".mov", ".avi", ".wmv", ".flv", ".webm", ".mkv"]

/-- The two video checks of scrape_photos: content-type substrings on the
lower-cased header, extension substrings on the lower-cased URL. -/
def is_video (contentType url : String) : Bool :=
  video_content_types.any (fun v => strContains (lowerStr contentType) v) ||
  video_exts.any (fun v => strContains (lowerStr url) v)

/-! ### Traversal engine: navigate_carousel_and_collect_images
(icloud_scraper.py, lines 184-257)

The Source Enumerator is a function from the step index (the number of
next-presses so far, photo_count in the code) to what the carousel shows:
no image elements at all, an image with a src url (the empty string models a
falsy src attribute), or a raised exception.  The while-True loop is given
structural fuel 5002, strictly more than the 5000-step hard limit of the code
can ever consume, so the fuel-exhaustion branch is unreachable. -/

inductive EnumStep
  | noImages
  | img (url : String)
  | fail
deriving DecidableEq

inductive TermReason
  | noImages
  | duplicateStorm
  | looped
  | hardLimit
  | enumFail
deriving DecidableEq

structure NavResult where
  images : List String
  reason : TermReason
  steps : Nat
deriving DecidableEq

def nav_go (e : Nat → EnumStep) :
    Nat → List String → Nat → Option String → Nat → NavResult
  | 0, all, count, _, _ => ⟨all, .hardLimit, count⟩
  | Nat.succ fuel, all, count, first, cd =>
    match e count with
    | .fail => ⟨all, .enumFail, count⟩
    | .noImages => ⟨all, .noImages, count⟩
    | .img url =>
      if url = "" then
        -- a falsy src: neither the new-url nor the duplicate branch runs
        if first = some url ∧ count > 0 then ⟨all, .looped, count⟩
        else if count + 1 > 5000 then ⟨all, .hardLimit, count + 1⟩
        else nav_go e fuel all (count + 1) first cd
      else if url ∈ all then
        if cd + 1 > 10 then ⟨all, .duplicateStorm, count⟩
        else if first = some url ∧ count > 0 then ⟨all, .looped, count⟩
        else if count + 1 > 5000 then ⟨all, .hardLimit, count + 1⟩
        else nav_go e fuel all (count + 1) first (cd + 1)
      else
        let all' := all ++ [url]
        let first' := some (first.getD url)
        if first' = some url ∧ count > 0 then ⟨all', .looped, count⟩
        else if count + 1 > 5000 then ⟨all', .hardLimit, count + 1⟩
        else nav_go e fuel all' (count + 1) first' 0

def navigate_carousel_and_collect_images (e : Nat → EnumStep) : NavResult :=
  nav_go e 5002 [] 0 none 0

/-! ### One discovery pass over the collected URLs
(icloud_scraper.py, scrape_photos lines 298-391)

The HTTP fetch is an oracle from URL to outcome; md5 is the digest function,
passed in abstractly; now is the timestamp used for processed_at, the
filename timestamp and the photo timestamp. -/

inductive FetchRes
  | err
  | ok (contentType : String) (content : String)
deriving DecidableEq

structure PassState where
  store : Store
  seen : List String
  newPhotos : List String
deriving DecidableEq

def filename_for (now idx : Nat) : String :=
  "photo_" ++ toString now ++ "_" ++ toString idx ++ ".jpg"

/-- Body of the download loop for one unprocessed URL, index idx. -/
def process_one (fetch : String → FetchRes) (md5 : String → String) (now : Nat)
    (ps : PassState) (idx : Nat) (url : String) : PassState :=
  match fetch url with
  | .err => ps
  | .ok ct content =>
    if is_video ct url then
      { ps with store := mark_url_processed now ps.store url none }
    else
      let h := md5 content
      let st' := mark_url_processed now ps.store url (some h)
      if h ∈ ps.seen then { ps with store := st' }
      else
        let rec0 : PhotoRecord := ⟨filename_for now idx, now, some url, false⟩
        let st2 : Store := { st' with processed_photos := insertA st'.processed_photos h rec0 }
        { store := st2, seen := ps.seen ++ [h], newPhotos := ps.newPhotos ++ [filename_for now idx] }

def run_urls (fetch : String → FetchRes) (md5 : String → String) (now : Nat) :
    PassState → Nat → List String → PassState
  | ps, _, [] => ps
  | ps, idx, u :: us => run_urls fetch md5 now (process_one fetch md5 now ps idx u) (idx + 1) us

/-- The store-level content of one scrape_photos pass, from the collected URL
list to the updated store and the list of newly materialized photos. -/
def scrape_photos_core (fetch : String → FetchRes) (md5 : String → String) (now : Nat)
    (st : Store) (image_urls : List String) : Store × List String :=
  if image_urls.isEmpty then (st, [])
  else
    let unprocessed := image_urls.filter (fun u => !(is_url_processed st u))
    if unprocessed.isEmpty then (st, [])
    else
      let ps := run_urls fetch md5 now ⟨st, keysA st.processed_photos, []⟩ 0 unprocessed
      (ps.store, ps.newPhotos)

/-! ### Filesystem layer: the two JSON stores and the two lock files
(icloud_scraper.py scrape_photos lines 260-281 and 393-411,
skylight_sync.py run_sync_once lines 74-149) -/

/-- Content of data/scraper.lock: an integer pid, or something int() rejects. -/
inductive LockContent
  | pid (p : Nat)
  | invalid
deriving DecidableEq

structure DiskState where
  urlsFile : List (String × UrlRecord)
  photosFile : List (String × PhotoRecord)
  scraperLock : Option LockContent
  backgroundLock : Option String
deriving DecidableEq

structure ScrapeResult where
  disk : DiskState
  ran : Bool
  raised : Bool
  newPhotos : List String
deriving DecidableEq

/-- Flush step at the end of a completed pass body: write processed_photos
then processed_urls, then the finally block removes the lock. -/
def scrape_finish (fetch : String → FetchRes) (md5 : String → String) (now : Nat)
    (st : Store) (unprocessed : List String) (d : DiskState) : ScrapeResult :=
  let ps := run_urls fetch md5 now ⟨st, keysA st.processed_photos, []⟩ 0 unprocessed
  ⟨{ d with photosFile := ps.store.processed_photos,
            urlsFile := ps.store.processed_urls,
            scraperLock := none },
   true, false, ps.newPhotos⟩

/-- Try body of scrape_photos, entered with the scraper lock held in d.
interruptAfter = some k models an exception no handler of scrape_photos
catches (for instance a KeyboardInterrupt: both except clauses only catch
Exception) raised after k URLs of the download loop were processed: the
finally block still removes the lock, but the two save calls at the end of
the try body never run, so the files keep their previous content. -/
def scrape_photos_body (fetch : String → FetchRes) (md5 : String → String) (now : Nat)
    (interruptAfter : Option Nat) (st : Store) (image_urls : List String)
    (d : DiskState) : ScrapeResult :=
  if image_urls.isEmpty then
    ⟨{ d with scraperLock := none }, true, false, []⟩
  else
    let unprocessed := image_urls.filter (fun u => !(is_url_processed st u))
    if unprocessed.isEmpty then
      ⟨{ d with urlsFile := st.processed_urls, scraperLock := none }, true, false, []⟩
    else
      match interruptAfter with
      | some k =>
        if k < unprocessed.length then ⟨{ d with scraperLock := none }, true, true, []⟩
        else scrape_finish fetch md5 now st unprocessed d
      | none => scrape_finish fetch md5 now st unprocessed d

/-- scrape_photos with its lock discipline: skip when the recorded pid is
alive; remove a stale or invalid lock and proceed; always write the own pid
before the body runs. -/
def scrape_photos_fs (alive : Nat → Bool) (myPid : Nat)
    (fetch : String → FetchRes) (md5 : String → String) (now : Nat)
    (interruptAfter : Option Nat) (st : Store) (image_urls : List String)
    (d : DiskState) : ScrapeResult :=
  match d.scraperLock with
  | some (.pid p) =>
    if alive p then ⟨d, false, false, []⟩
    else scrape_photos_body fetch md5 now interruptAfter st image_urls
      { d with scraperLock := some (.pid myPid) }
  | some .invalid =>
    scrape_photos_body fetch md5 now interruptAfter st image_urls
      { d with scraperLock := some (.pid myPid) }
  | none =>
    scrape_photos_body fetch md5 now interruptAfter st image_urls
      { d with scraperLock := some (.pid myPid) }

/-! ### Notifier: EmailSender (email_sender.py) -/

/-- send_photos: an empty photo list returns False before any SMTP traffic;
otherwise the outcome of the SMTP session, supplied as the smtpOk oracle. -/
def send_photos (smtpOk : Bool) (photo_paths : List String) : Bool :=
  if photo_paths.isEmpty then false else smtpOk

/-- Slices photo_paths[i:i+batch_size] for i in range(0, len, batch_size).
A zero step raises ValueError in Python; this code only ever calls it with
batch_size = 5, so the zero case is given an arbitrary total value. -/
def chunksB {α : Type} : Nat → List α → List (List α)
  | _, [] => []
  | 0, _ :: _ => []
  | b + 1, c :: cs => ((c :: cs).take (b + 1)) :: chunksB (b + 1) ((c :: cs).drop (b + 1))
termination_by _ l => l.length
decreasing_by simp [List.length_drop]; omega

/-- send_photos_in_batches: every batch must succeed; the first failing batch
aborts with False; no batches (empty input) yields True. -/
def send_photos_in_batches (smtpOk : Bool) (photo_paths : List String) (batch_size : Nat) : Bool :=
  (chunksB batch_size photo_paths).all (fun b => send_photos smtpOk b)

/-! ### The CLI email phase (icloud_scraper.py `__main__`, lines 443-469) -/

/-- Marking loop on success: every record not yet emailed has emailed set True. -/
def mark_one (r : PhotoRecord) : PhotoRecord :=
  if r.emailed then r else { r with emailed := true }

def main_email_mark (photos : List (String × PhotoRecord)) : List (String × PhotoRecord) :=
  photos.map (fun p => (p.1, mark_one p.2))

/-- The email sync phase of the CLI entry point: collect unemailed photos whose
file exists, send them in batches of 5, and only on reported success run the
marking loop.  The Bool result records whether marking happened. -/
def main_email_sync (smtpOk : Bool) (fileExists : String → Bool)
    (photos : List (String × PhotoRecord)) : List (String × PhotoRecord) × Bool :=
  let unemailed := (photos.filter (fun p => !p.2.emailed && fileExists p.2.filename)).map
    (fun p => p.2.filename)
  if unemailed.isEmpty then (photos, false)
  else if send_photos_in_batches smtpOk unemailed 5 then (main_email_mark photos, true)
  else (photos, false)

/-! ### Execution Coordinator: run_sync_once (skylight_sync.py, lines 74-149) -/

structure SyncResult where
  disk : DiskState
  ranPass : Bool
  ok : Bool
  raised : Bool
  photosSent : Nat
deriving DecidableEq

/-- run_sync_once: skip on mere existence of either lock file (no liveness
check), else write the background lock, construct the scraper (load from disk
and migrate, the migration saving processed_urls when it moved anything),
scrape, email the new photos on success, and remove the background lock in
the finally block.  No photo record is ever marked emailed here. -/
def run_sync_once (alive : Nat → Bool) (myPid : Nat)
    (fetch : String → FetchRes) (md5 : String → String) (now : Nat)
    (interruptAfter : Option Nat) (notifierOk : Bool)
    (image_urls : List String) (disk : DiskState) : SyncResult :=
  if disk.scraperLock.isSome then ⟨disk, false, false, false, 0⟩
  else if disk.backgroundLock.isSome then ⟨disk, false, false, false, 0⟩
  else
    let d1 := { disk with backgroundLock := some ("background_sync_" ++ toString myPid) }
    let st0 : Store := ⟨d1.urlsFile, d1.photosFile⟩
    let st1 := migrate_existing_urls now st0
    let d2 := if st1 = st0 then d1 else { d1 with urlsFile := st1.processed_urls }
    let r := scrape_photos_fs alive myPid fetch md5 now interruptAfter st1 image_urls d2
    if r.raised then ⟨{ r.disk with backgroundLock := none }, true, false, true, 0⟩
    else
      let sent := if r.newPhotos.isEmpty then 0
                  else if notifierOk then r.newPhotos.length else 0
      ⟨{ r.disk with backgroundLock := none }, true, true, false, sent⟩

/-! ### Concrete instances used by counterexamples and witnesses -/

/-- Enumerator stuck on the single locator A at every step. -/
def constA_enum : Nat → EnumStep := fun _ => .img "A"

/-- Enumerator yielding a once and then stuck on b: the stuck locator differs
from the first of the session. -/
def storm_enum : Nat → EnumStep := fun n => if n = 0 then .img "a" else .img "b"

/-- Enumerator yielding A, B, A (the first locator reappearing third). -/
def aba_enum : Nat → EnumStep :=
  fun n => if n = 0 then .img "A" else if n = 1 then .img "B" else .img "A"

/-- A world in which no recorded process is alive. -/
def no_process_alive : Nat → Bool := fun _ => false

def empty_store : Store := ⟨[], []⟩

def empty_disk : DiskState := ⟨[], [], none, none⟩

/-- Disk with a scraper lock naming pid 7 (dead under no_process_alive). -/
def dead_scraper_lock_disk : DiskState := ⟨[], [], some (.pid 7), none⟩

def urlA : String := "http://h/a.jpg"

def urlB : String := "http://h/b.jpg"

/-- Fetch oracle: urlA yields a JPEG body, everything else errors. -/
def fetch1 : String → FetchRes := fun u => if u = urlA then .ok "image/jpeg" "CA" else .err

/-- Fetch oracle: urlA and urlB yield distinct JPEG bodies, the rest errors. -/
def fetch2 : String → FetchRes :=
  fun u => if u = urlA then .ok "image/jpeg" "CA"
           else if u = urlB then .ok "image/jpeg" "CB" else .err

/-- Injective-on-these-inputs stand-in for the md5 hexdigest. -/
def md5c : String → String := fun c => "md5_" ++ c

/-- Fetch oracle: urlA and urlB yield identical JPEG bodies. -/
def fetch_same : String → FetchRes :=
  fun u => if u = urlA || u = urlB then .ok "image/jpeg" "CC" else .err

/-- Legacy state for the migration claim: photo store carries a record with an
embedded url, URL store empty (the state the code migrates). -/
def legacy_photo_store : Store :=
  ⟨[], [("h1", ⟨"f.jpg", 0, some "http://x/p.jpg", false⟩)]⟩

/-- State matching the claim wording instead: photo store empty, URL store
carrying an embedded hash link (the code does not migrate it). -/
def legacy_url_store : Store :=
  ⟨[("p.jpg", ⟨some "h1", "http://x/p.jpg", 0⟩)], []⟩

/-- One undelivered photo record, file present on disk. -/
def photos1 : List (String × PhotoRecord) := [("h1", ⟨"f.jpg", 0, some "http://x/p.jpg", false⟩)]

/-- File-existence oracle that finds every photo file. -/
def all_files_exist : String → Bool := fun _ => true

/-! ## Theorems -/

/-- Claim C6: the enumerator yielding A, B, A (first locator reappearing as the
third item) terminates with session set between A and B and reason Looped, after two
steps; the duplicate threshold 10 is far above 1. -/
theorem C6_aba_traversal_loops :
    navigate_carousel_and_collect_images aba_enum =
      ⟨["A", "B"], TermReason.looped, 2⟩ := by
  decide

/-- Claim C10: at the Notifier interface an empty artifact list succeeds at the
batch level but fails at the single-send level: send_photos_in_batches on an
empty photo list is True (no batch is attempted) while send_photos on an empty
photo list is False, for either SMTP outcome. -/
theorem C10_empty_photo_list (smtpOk : Bool) :
    send_photos_in_batches smtpOk [] 5 = true ∧ send_photos smtpOk [] = false := by
  refine ⟨?_, rfl⟩
  simp [send_photos_in_batches, chunksB]

/-- Claim C1 counterexample: an enumerator that yields the same single locator A
at every step does not terminate with DuplicateStorm; the loop-detection check
fires first and the traversal stops with reason Looped at step 1. -/
theorem C1_counterexample :
    navigate_carousel_and_collect_images constA_enum =
      ⟨["A"], TermReason.looped, 1⟩ ∧
    (navigate_carousel_and_collect_images constA_enum).reason ≠
      TermReason.duplicateStorm := by
  decide

/-- Claim C2 counterexample: a pass started through run_sync_once that finds an
existing scraper lock recording pid 7, with no process alive, does not reclaim
the lock and does not proceed: it skips and leaves the disk untouched. -/
theorem C2_counterexample :
    run_sync_once no_process_alive 1 fetch1 md5c 0 none true [] dead_scraper_lock_disk =
      ⟨dead_scraper_lock_disk, false, false, false, 0⟩ ∧
    (run_sync_once no_process_alive 1 fetch1 md5c 0 none true []
        dead_scraper_lock_disk).disk.scraperLock = some (LockContent.pid 7) := by
  decide

/-- Claim C3 counterexample: a background pass (run_sync_once) materializes one
new artifact, the Notifier reports success (1 photo sent), yet the delivered
flag of the batched hash stays false in the persisted photo store. -/
theorem C3_counterexample :
    (run_sync_once no_process_alive 1 fetch1 md5c 0 none true [urlA] empty_disk).photosSent = 1 ∧
    (lookupA (run_sync_once no_process_alive 1 fetch1 md5c 0 none true [urlA]
        empty_disk).disk.photosFile "md5_CA").map PhotoRecord.emailed = some false := by
  decide

/-- Claim C4 counterexample: a pass interrupted by an exception that escapes the
handlers (raised after the first of two URLs was processed) releases its lock
but flushes nothing: both store files keep their previous content, although the
same pass run to completion writes URL records to disk. -/
theorem C4_counterexample :
    (scrape_photos_fs no_process_alive 1 fetch2 md5c 0 (some 1) empty_store [urlA, urlB]
        empty_disk).raised = true ∧
    (scrape_photos_fs no_process_alive 1 fetch2 md5c 0 (some 1) empty_store [urlA, urlB]
        empty_disk).disk.scraperLock = none ∧
    (scrape_photos_fs no_process_alive 1 fetch2 md5c 0 (some 1) empty_store [urlA, urlB]
        empty_disk).disk.urlsFile = [] ∧
    (scrape_photos_fs no_process_alive 1 fetch2 md5c 0 none empty_store [urlA, urlB]
        empty_disk).disk.urlsFile ≠ [] := by
  decide

/-- Claim C5 counterexample: the migration guard of the code is the reverse of
the claim wording.  On a state whose photo (hash-keyed) store is nonempty and
whose URL store is empty the claim guard is false yet the code migrates; on a
state whose photo store is empty and whose URL store carries an embedded hash
link the claim guard is true yet the code changes nothing. -/
theorem C5_counterexample :
    claim_migration_guard legacy_photo_store = false ∧
    migrate_existing_urls 0 legacy_photo_store ≠ legacy_photo_store ∧
    claim_migration_guard legacy_url_store = true ∧
    migrate_existing_urls 0 legacy_url_store = legacy_url_store := by
  decide

/-- Claim C9 counterexample: two locators that differ only in their query
parameters (shared prefix http://[x before the ?, which contains no ? itself)
normalize to distinct identities, because the unbalanced bracket netloc makes
the parser fail and normalize_url falls back to each raw locator. -/
theorem C9_counterexample :
    "http://[x?a" = "http://[x" ++ "?" ++ "a" ∧
    "http://[x?b" = "http://[x" ++ "?" ++ "b" ∧
    ("http://[x".data.contains '?') = false ∧
    normalize_url "http://[x?a" ≠ normalize_url "http://[x?b" := by
  decide

/-- Claim C1 (amended): an enumerator stuck on one single (non-falsy) locator
terminates in bounded steps, but with reason Looped at step 1, because the
loop-back check fires before eleven duplicates can accumulate; the
DuplicateStorm exit fires when the enumerator is stuck on a locator other than
the first of the session, once the consecutive-duplicate counter exceeds the
fixed threshold 10 (the eleventh consecutive duplicate, step 12 when the storm
starts at the second item). -/
theorem C1_amended :
    (∀ u : String, u ≠ "" →
      navigate_carousel_and_collect_images (fun _ => EnumStep.img u) =
        ⟨[u], TermReason.looped, 1⟩) ∧
    navigate_carousel_and_collect_images storm_enum =
      ⟨["a", "b"], TermReason.duplicateStorm, 12⟩ := by
  constructor
  · intro u hu
    have h5 : (5002 : Nat) = Nat.succ (Nat.succ 5000) := rfl
    unfold navigate_carousel_and_collect_images
    rw [h5]
    rw [nav_go]
    simp only [hu, if_false, ite_false, List.not_mem_nil, Option.getD_none, List.nil_append]
    rw [if_neg (by simp : ¬(True ∧ 0 > 0)), if_neg (by decide : ¬(0 + 1 > 5000))]
    rw [nav_go]
    simp only [hu, List.mem_singleton, eq_self_iff_true, if_true, ite_true, if_false, ite_false,
      true_and, and_true]
    rw [if_neg (by decide : ¬(0 + 1 > 10))]
    rw [if_pos (by decide : (0:Nat) + 1 > 0)]
  · decide

/-- Witness for C1_amended at the concrete locator A. -/
theorem C1_amended_witness :
    navigate_carousel_and_collect_images (fun _ => EnumStep.img "A") =
      ⟨["A"], TermReason.looped, 1⟩ :=
  C1_amended.1 "A" (by decide)

/-! ### Association-list lemmas -/

@[simp]
theorem keysA_cons {α : Type} (a : String) (b : α) (rest : List (String × α)) :
    keysA ((a, b) :: rest) = a :: keysA rest := rfl

@[simp]
theorem keysA_nil {α : Type} : keysA ([] : List (String × α)) = [] := rfl

theorem lookupA_insertA {α : Type} (l : List (String × α)) (k' k : String) (v : α) :
    lookupA (insertA l k' v) k = if k' = k then some v else lookupA l k := by
  induction l with
  | nil => simp [insertA, lookupA]
  | cons p rest ih =>
    obtain ⟨a, b⟩ := p
    by_cases hak : a = k'
    · subst hak
      simp only [insertA, if_pos rfl, lookupA]
      by_cases h : a = k
      · simp [h]
      · simp [h, lookupA]
    · simp only [insertA, if_neg hak, lookupA]
      by_cases h : a = k
      · subst h
        have : ¬ k' = a := fun he => hak he.symm
        simp [this]
      · simp [h, ih]

theorem lookupA_isSome_iff_mem {α : Type} (l : List (String × α)) (k : String) :
    (lookupA l k).isSome ↔ k ∈ keysA l := by
  induction l with
  | nil => simp [lookupA, keysA]
  | cons p rest ih =>
    obtain ⟨a, b⟩ := p
    by_cases h : a = k
    · subst h
      simp [lookupA, keysA]
    · simp [lookupA, h, keysA, ih, Ne.symm h]

theorem keysA_insertA_not_mem {α : Type} (l : List (String × α)) (k : String) (v : α)
    (h : k ∉ keysA l) : keysA (insertA l k v) = keysA l ++ [k] := by
  induction l with
  | nil => simp [insertA, keysA]
  | cons p rest ih =>
    obtain ⟨a, b⟩ := p
    simp only [keysA_cons, List.mem_cons, not_or] at h
    obtain ⟨hne, hr⟩ := h
    have hak : ¬ a = k := fun he => hne he.symm
    simp [insertA, hak, ih hr]

theorem countA_eq_zero_of_lookupA_none {α : Type} (l : List (String × α)) (k : String)
    (h : lookupA l k = none) : countA l k = 0 := by
  induction l with
  | nil => simp [countA]
  | cons p rest ih =>
    obtain ⟨a, b⟩ := p
    by_cases hak : a = k
    · subst hak
      simp [lookupA] at h
    · simp only [lookupA, if_neg hak] at h
      simp [countA, List.filter, hak, decide_eq_true_eq] at ih ⊢
      have := ih h
      simpa [countA, List.filter] using this

theorem countA_insertA_not_mem {α : Type} (l : List (String × α)) (k : String) (v : α)
    (h : lookupA l k = none) : countA (insertA l k v) k = 1 := by
  induction l with
  | nil => simp [insertA, countA, List.filter]
  | cons p rest ih =>
    obtain ⟨a, b⟩ := p
    by_cases hak : a = k
    · subst hak
      simp [lookupA] at h
    · simp only [lookupA, if_neg hak] at h
      simp only [insertA, if_neg hak]
      simp [countA, List.filter, hak, decide_eq_true_eq] at ih ⊢
      simpa [countA, List.filter] using ih h

/-! ### Lemmas about the download loop of scrape_photos -/

@[simp]
theorem mark_url_processed_photos (now : Nat) (st : Store) (url : String) (h0 : Option String) :
    (mark_url_processed now st url h0).processed_photos = st.processed_photos := rfl

theorem process_one_err (fetch : String → FetchRes) (md5 : String → String) (now : Nat)
    (ps : PassState) (idx : Nat) (u : String) (hf : fetch u = .err) :
    process_one fetch md5 now ps idx u = ps := by
  unfold process_one
  rw [hf]

theorem process_one_video (fetch : String → FetchRes) (md5 : String → String) (now : Nat)
    (ps : PassState) (idx : Nat) (u ct c : String) (hf : fetch u = .ok ct c)
    (hv : is_video ct u = true) :
    process_one fetch md5 now ps idx u =
      { ps with store := mark_url_processed now ps.store u none } := by
  unfold process_one
  rw [hf]
  simp only [hv, if_true, ite_true]

theorem process_one_dup (fetch : String → FetchRes) (md5 : String → String) (now : Nat)
    (ps : PassState) (idx : Nat) (u ct c : String) (hf : fetch u = .ok ct c)
    (hv : is_video ct u = false) (hs : md5 c ∈ ps.seen) :
    process_one fetch md5 now ps idx u =
      { ps with store := mark_url_processed now ps.store u (some (md5 c)) } := by
  unfold process_one
  rw [hf]
  simp only [hv, Bool.false_eq_true, if_false, ite_false]
  rw [if_pos hs]

theorem process_one_new (fetch : String → FetchRes) (md5 : String → String) (now : Nat)
    (ps : PassState) (idx : Nat) (u ct c : String) (hf : fetch u = .ok ct c)
    (hv : is_video ct u = false) (hs : md5 c ∉ ps.seen) :
    process_one fetch md5 now ps idx u =
      ⟨⟨insertA ps.store.processed_urls (normalize_url u) ⟨some (md5 c), u, now⟩,
        insertA ps.store.processed_photos (md5 c) ⟨filename_for now idx, now, some u, false⟩⟩,
       ps.seen ++ [md5 c], ps.newPhotos ++ [filename_for now idx]⟩ := by
  unfold process_one
  rw [hf]
  simp only [hv, Bool.false_eq_true, if_false, ite_false]
  rw [if_neg hs]
  rfl

theorem mark_preserves_isSome (now : Nat) (st : Store) (url : String) (h0 : Option String)
    (k : String) (h : (lookupA st.processed_urls k).isSome) :
    (lookupA (mark_url_processed now st url h0).processed_urls k).isSome := by
  show (lookupA (insertA st.processed_urls (normalize_url url) _) k).isSome
  rw [lookupA_insertA]
  split
  · simp
  · exact h

theorem mark_self_processed (now : Nat) (st : Store) (url : String) (h0 : Option String) :
    is_url_processed (mark_url_processed now st url h0) url = true := by
  show (lookupA (insertA st.processed_urls (normalize_url url) _) (normalize_url url)).isSome = true
  rw [lookupA_insertA]
  simp

theorem process_one_urls_mono (fetch : String → FetchRes) (md5 : String → String) (now : Nat)
    (ps : PassState) (idx : Nat) (u k : String)
    (h : (lookupA ps.store.processed_urls k).isSome) :
    (lookupA (process_one fetch md5 now ps idx u).store.processed_urls k).isSome := by
  unfold process_one
  cases hf : fetch u with
  | err => exact h
  | ok ct content =>
    by_cases hv : is_video ct u
    · simp only [hv, if_true, ite_true]
      exact mark_preserves_isSome now ps.store u none k h
    · simp only [hv, if_false, ite_false]
      by_cases hs : md5 content ∈ ps.seen
      · simp only [hs, if_true, ite_true]
        exact mark_preserves_isSome now ps.store u (some (md5 content)) k h
      · simp only [hs, if_false, ite_false]
        exact mark_preserves_isSome now ps.store u (some (md5 content)) k h

theorem process_one_marks (fetch : String → FetchRes) (md5 : String → String) (now : Nat)
    (ps : PassState) (idx : Nat) (u : String) (ct c : String) (hf : fetch u = .ok ct c) :
    is_url_processed (process_one fetch md5 now ps idx u).store u = true := by
  unfold process_one
  rw [hf]
  by_cases hv : is_video ct u
  · simp only [hv, if_true, ite_true]
    exact mark_self_processed now ps.store u none
  · simp only [hv, if_false, ite_false]
    by_cases hs : md5 c ∈ ps.seen
    · simp only [hs, if_true, ite_true]
      exact mark_self_processed now ps.store u (some (md5 c))
    · simp only [hs, if_false, ite_false]
      exact mark_self_processed now ps.store u (some (md5 c))

theorem run_urls_urls_mono (fetch : String → FetchRes) (md5 : String → String) (now : Nat) :
    ∀ (us : List String) (ps : PassState) (idx : Nat) (k : String),
    (lookupA ps.store.processed_urls k).isSome →
    (lookupA (run_urls fetch md5 now ps idx us).store.processed_urls k).isSome := by
  intro us
  induction us with
  | nil => intro ps idx k h; exact h
  | cons v vs ih =>
    intro ps idx k h
    exact ih _ _ k (process_one_urls_mono fetch md5 now ps idx v k h)

theorem run_urls_processed_mono (fetch : String → FetchRes) (md5 : String → String) (now : Nat)
    (us : List String) (ps : PassState) (idx : Nat) (u : String)
    (h : is_url_processed ps.store u = true) :
    is_url_processed (run_urls fetch md5 now ps idx us).store u = true := by
  unfold is_url_processed at h ⊢
  simpa using run_urls_urls_mono fetch md5 now us ps idx (normalize_url u) (by simpa using h)

theorem run_urls_marks_ok (fetch : String → FetchRes) (md5 : String → String) (now : Nat) :
    ∀ (us : List String) (ps : PassState) (idx : Nat) (u : String) (ct c : String),
    u ∈ us → fetch u = .ok ct c →
    is_url_processed (run_urls fetch md5 now ps idx us).store u = true := by
  intro us
  induction us with
  | nil => intro ps idx u ct c hm; exact absurd hm (List.not_mem_nil u)
  | cons v vs ih =>
    intro ps idx u ct c hm hf
    rcases List.mem_cons.mp hm with he | hm'
    · subst he
      exact run_urls_processed_mono fetch md5 now vs _ _ u
        (process_one_marks fetch md5 now ps idx u ct c hf)
    · exact ih _ _ u ct c hm' hf

theorem run_urls_err_id (fetch : String → FetchRes) (md5 : String → String) (now : Nat) :
    ∀ (us : List String) (ps : PassState) (idx : Nat),
    (∀ u ∈ us, fetch u = .err) → run_urls fetch md5 now ps idx us = ps := by
  intro us
  induction us with
  | nil => intro ps idx _; rfl
  | cons v vs ih =>
    intro ps idx h
    have hv : fetch v = .err := h v (List.mem_cons_self v vs)
    show run_urls fetch md5 now (process_one fetch md5 now ps idx v) (idx + 1) vs = ps
    have : process_one fetch md5 now ps idx v = ps := by
      unfold process_one
      rw [hv]
    rw [this]
    exact ih _ _ (fun u hu => h u (List.mem_cons_of_mem v hu))

/-- Claim C7: for every store, every URL list and every (unchanged) fetch
oracle, running the discovery pass a second time on the store produced by the
first run materializes nothing: it returns the first-run store unchanged and
an empty new-photo list, so the ArtifactRecord count never increases. -/
theorem C7_second_pass_is_noop (fetch : String → FetchRes) (md5 : String → String)
    (n1 n2 : Nat) (st : Store) (urls : List String) :
    scrape_photos_core fetch md5 n2 (scrape_photos_core fetch md5 n1 st urls).1 urls =
      ((scrape_photos_core fetch md5 n1 st urls).1, ([] : List String)) := by
  by_cases hu : urls.isEmpty
  · simp [scrape_photos_core, hu]
  · by_cases hf1 : (urls.filter (fun u => !(is_url_processed st u))).isEmpty
    · simp [scrape_photos_core, hu, hf1]
    · have hr1 : (scrape_photos_core fetch md5 n1 st urls).1 =
          (run_urls fetch md5 n1 ⟨st, keysA st.processed_photos, []⟩ 0
            (urls.filter (fun u => !(is_url_processed st u)))).store := by
        simp [scrape_photos_core, hu, hf1]
      set S := (run_urls fetch md5 n1 ⟨st, keysA st.processed_photos, []⟩ 0
        (urls.filter (fun u => !(is_url_processed st u)))).store with hS
      have hkey : ∀ u ∈ urls.filter (fun u => !(is_url_processed S u)), fetch u = .err := by
        intro u hu2
        have hmem := (List.mem_filter.mp hu2).1
        have hps : is_url_processed S u = false := by
          have := (List.mem_filter.mp hu2).2
          simpa using this
        cases hfu : fetch u with
        | err => rfl
        | ok ct c =>
          exfalso
          by_cases hp0 : is_url_processed st u
          · have : is_url_processed S u = true := by
              rw [hS]
              exact run_urls_processed_mono fetch md5 n1 _ _ _ u hp0
            rw [this] at hps
            simp at hps
          · have hin : u ∈ urls.filter (fun u => !(is_url_processed st u)) := by
              refine List.mem_filter.mpr ⟨hmem, ?_⟩
              simp [Bool.eq_false_iff.mpr hp0]
            have : is_url_processed S u = true := by
              rw [hS]
              exact run_urls_marks_ok fetch md5 n1 _ _ _ u ct c hin hfu
            rw [this] at hps
            simp at hps
      rw [hr1]
      by_cases hf2 : (urls.filter (fun u => !(is_url_processed S u))).isEmpty
      · simp [scrape_photos_core, hu, hf2]
      · have hid := run_urls_err_id fetch md5 n2
          (urls.filter (fun u => !(is_url_processed S u)))
          ⟨S, keysA S.processed_photos, []⟩ 0 hkey
        simp [scrape_photos_core, hu, hf2, hid]

/-! ### Photo-store lemmas: existing artifact records survive a pass -/

theorem process_one_photos_preserved (fetch : String → FetchRes) (md5 : String → String)
    (now : Nat) (ps : PassState) (idx : Nat) (u k : String) (hk : k ∈ ps.seen) :
    lookupA (process_one fetch md5 now ps idx u).store.processed_photos k =
      lookupA ps.store.processed_photos k ∧
    k ∈ (process_one fetch md5 now ps idx u).seen := by
  unfold process_one
  cases hf : fetch u with
  | err => exact ⟨rfl, hk⟩
  | ok ct content =>
    by_cases hv : is_video ct u
    · simp only [hv, if_true, ite_true]
      exact ⟨rfl, hk⟩
    · simp only [hv, if_false, ite_false]
      by_cases hs : md5 content ∈ ps.seen
      · simp only [hs, if_true, ite_true]
        exact ⟨rfl, hk⟩
      · simp only [hs, if_false, ite_false]
        constructor
        · show lookupA (insertA ps.store.processed_photos (md5 content) _) k = _
          rw [lookupA_insertA]
          have hne : ¬ md5 content = k := fun he => hs (he ▸ hk)
          rw [if_neg hne]
        · exact List.mem_append_left _ hk

theorem run_urls_photos_preserved (fetch : String → FetchRes) (md5 : String → String)
    (now : Nat) : ∀ (us : List String) (ps : PassState) (idx : Nat) (k : String),
    k ∈ ps.seen →
    lookupA (run_urls fetch md5 now ps idx us).store.processed_photos k =
      lookupA ps.store.processed_photos k ∧
    k ∈ (run_urls fetch md5 now ps idx us).seen := by
  intro us
  induction us with
  | nil => intro ps idx k hk; exact ⟨rfl, hk⟩
  | cons v vs ih =>
    intro ps idx k hk
    have h1 := process_one_photos_preserved fetch md5 now ps idx v k hk
    have h2 := ih (process_one fetch md5 now ps idx v) (idx + 1) k h1.2
    exact ⟨h2.1.trans h1.1, h2.2⟩

theorem process_one_photos_nodup (fetch : String → FetchRes) (md5 : String → String)
    (now : Nat) (ps : PassState) (idx : Nat) (u : String)
    (hsub : ∀ x ∈ keysA ps.store.processed_photos, x ∈ ps.seen)
    (hnd : (keysA ps.store.processed_photos).Nodup) :
    (keysA (process_one fetch md5 now ps idx u).store.processed_photos).Nodup ∧
    (∀ x ∈ keysA (process_one fetch md5 now ps idx u).store.processed_photos,
      x ∈ (process_one fetch md5 now ps idx u).seen) := by
  cases hf : fetch u with
  | err =>
    rw [process_one_err fetch md5 now ps idx u hf]
    exact ⟨hnd, hsub⟩
  | ok ct content =>
    cases hv : is_video ct u with
    | true =>
      rw [process_one_video fetch md5 now ps idx u ct content hf hv]
      exact ⟨hnd, hsub⟩
    | false =>
      by_cases hs : md5 content ∈ ps.seen
      · rw [process_one_dup fetch md5 now ps idx u ct content hf hv hs]
        exact ⟨hnd, hsub⟩
      · rw [process_one_new fetch md5 now ps idx u ct content hf hv hs]
        have hnm : md5 content ∉ keysA ps.store.processed_photos :=
          fun hm => hs (hsub _ hm)
        constructor
        · show (keysA (insertA ps.store.processed_photos (md5 content) _)).Nodup
          rw [keysA_insertA_not_mem _ _ _ hnm]
          simp [List.nodup_append, hnd, hnm]
        · intro x hx
          show x ∈ ps.seen ++ [md5 content]
          have hx' : x ∈ keysA (insertA ps.store.processed_photos (md5 content)
              ⟨filename_for now idx, now, some u, false⟩) := hx
          rw [keysA_insertA_not_mem _ _ _ hnm] at hx'
          rcases List.mem_append.mp hx' with h1 | h2
          · exact List.mem_append_left _ (hsub _ h1)
          · exact List.mem_append_right _ h2

theorem run_urls_photos_nodup (fetch : String → FetchRes) (md5 : String → String)
    (now : Nat) : ∀ (us : List String) (ps : PassState) (idx : Nat),
    (∀ x ∈ keysA ps.store.processed_photos, x ∈ ps.seen) →
    (keysA ps.store.processed_photos).Nodup →
    (keysA (run_urls fetch md5 now ps idx us).store.processed_photos).Nodup := by
  intro us
  induction us with
  | nil => intro ps idx _ hnd; exact hnd
  | cons v vs ih =>
    intro ps idx hsub hnd
    have h1 := process_one_photos_nodup fetch md5 now ps idx v hsub hnd
    exact ih _ _ h1.2 h1.1

/-- Claim C8: (1) an already-present ArtifactRecord is never overwritten by a
pass; (2) a pass preserves the at-most-one-record-per-content-hash invariant
(no duplicate hash keys); (3) when two distinct locators fetch identical bytes
in one pass, exactly one ArtifactRecord is created for that content hash, both
locators are marked processed with that hash, and exactly one photo is
materialized. -/
theorem C8_one_record_per_hash :
    (∀ (fetch : String → FetchRes) (md5 : String → String) (now : Nat) (st : Store)
      (urls : List String) (k : String),
      (lookupA st.processed_photos k).isSome →
      lookupA (scrape_photos_core fetch md5 now st urls).1.processed_photos k =
        lookupA st.processed_photos k) ∧
    (∀ (fetch : String → FetchRes) (md5 : String → String) (now : Nat) (st : Store)
      (urls : List String),
      (keysA st.processed_photos).Nodup →
      (keysA (scrape_photos_core fetch md5 now st urls).1.processed_photos).Nodup) ∧
    (∀ (fetch : String → FetchRes) (md5 : String → String) (now : Nat) (st : Store)
      (u1 u2 ct1 ct2 c : String),
      u1 ≠ u2 →
      fetch u1 = .ok ct1 c → fetch u2 = .ok ct2 c →
      is_video ct1 u1 = false → is_video ct2 u2 = false →
      is_url_processed st u1 = false → is_url_processed st u2 = false →
      lookupA st.processed_photos (md5 c) = none →
      countA (scrape_photos_core fetch md5 now st [u1, u2]).1.processed_photos (md5 c) = 1 ∧
      (lookupA (scrape_photos_core fetch md5 now st [u1, u2]).1.processed_urls
        (normalize_url u1)).map UrlRecord.photo_hash = some (some (md5 c)) ∧
      (lookupA (scrape_photos_core fetch md5 now st [u1, u2]).1.processed_urls
        (normalize_url u2)).map UrlRecord.photo_hash = some (some (md5 c)) ∧
      (scrape_photos_core fetch md5 now st [u1, u2]).2 = [filename_for now 0]) := by
  refine ⟨?_, ?_, ?_⟩
  · intro fetch md5 now st urls k h
    by_cases hu : urls.isEmpty
    · simp [scrape_photos_core, hu]
    · by_cases hf : (urls.filter (fun u => !(is_url_processed st u))).isEmpty
      · simp [scrape_photos_core, hu, hf]
      · have hk : k ∈ keysA st.processed_photos := (lookupA_isSome_iff_mem _ _).mp h
        have hp := run_urls_photos_preserved fetch md5 now
          (urls.filter (fun u => !(is_url_processed st u)))
          ⟨st, keysA st.processed_photos, []⟩ 0 k hk
        simp only [scrape_photos_core, hu, Bool.false_eq_true, if_false, ite_false, hf]
        exact hp.1
  · intro fetch md5 now st urls hnd
    by_cases hu : urls.isEmpty
    · simpa [scrape_photos_core, hu] using hnd
    · by_cases hf : (urls.filter (fun u => !(is_url_processed st u))).isEmpty
      · simpa [scrape_photos_core, hu, hf] using hnd
      · have hp := run_urls_photos_nodup fetch md5 now
          (urls.filter (fun u => !(is_url_processed st u)))
          ⟨st, keysA st.processed_photos, []⟩ 0 (fun x hx => hx) hnd
        simp only [scrape_photos_core, hu, Bool.false_eq_true, if_false, ite_false, hf]
        exact hp
  · intro fetch md5 now st u1 u2 ct1 ct2 c hne hf1 hf2 hv1 hv2 hp1 hp2 hl
    have hfil : List.filter (fun u => !(is_url_processed st u)) [u1, u2] = [u1, u2] := by
      simp [List.filter, hp1, hp2]
    have hs0 : md5 c ∉ keysA st.processed_photos := by
      intro hm
      have := (lookupA_isSome_iff_mem st.processed_photos (md5 c)).mpr hm
      rw [hl] at this
      simp at this
    have hrun : scrape_photos_core fetch md5 now st [u1, u2] =
        ((run_urls fetch md5 now ⟨st, keysA st.processed_photos, []⟩ 0 [u1, u2]).store,
         (run_urls fetch md5 now ⟨st, keysA st.processed_photos, []⟩ 0 [u1, u2]).newPhotos) := by
      simp only [scrape_photos_core, List.isEmpty_cons, Bool.false_eq_true, if_false, ite_false,
        hfil]
    have hstep1 : process_one fetch md5 now ⟨st, keysA st.processed_photos, []⟩ 0 u1 =
        ⟨⟨insertA st.processed_urls (normalize_url u1) ⟨some (md5 c), u1, now⟩,
          insertA st.processed_photos (md5 c) ⟨filename_for now 0, now, some u1, false⟩⟩,
         keysA st.processed_photos ++ [md5 c], [filename_for now 0]⟩ := by
      rw [process_one_new fetch md5 now _ 0 u1 ct1 c hf1 hv1 hs0]
      rfl
    have hm2 : md5 c ∈ keysA st.processed_photos ++ [md5 c] :=
      List.mem_append_right _ (List.mem_singleton.mpr rfl)
    have hstep2 := process_one_dup fetch md5 now
      ⟨⟨insertA st.processed_urls (normalize_url u1) ⟨some (md5 c), u1, now⟩,
        insertA st.processed_photos (md5 c) ⟨filename_for now 0, now, some u1, false⟩⟩,
       keysA st.processed_photos ++ [md5 c], [filename_for now 0]⟩ 1 u2 ct2 c hf2 hv2 hm2
    have hfinal : run_urls fetch md5 now ⟨st, keysA st.processed_photos, []⟩ 0 [u1, u2] =
        ⟨⟨insertA (insertA st.processed_urls (normalize_url u1) ⟨some (md5 c), u1, now⟩)
            (normalize_url u2) ⟨some (md5 c), u2, now⟩,
          insertA st.processed_photos (md5 c) ⟨filename_for now 0, now, some u1, false⟩⟩,
         keysA st.processed_photos ++ [md5 c], [filename_for now 0]⟩ := by
      show run_urls fetch md5 now (process_one fetch md5 now ⟨st, keysA st.processed_photos, []⟩ 0 u1) 1 [u2] = _
      rw [hstep1]
      show run_urls fetch md5 now (process_one fetch md5 now _ 1 u2) 2 [] = _
      rw [hstep2]
      rfl
    rw [hrun, hfinal]
    refine ⟨?_, ?_, ?_, rfl⟩
    · exact countA_insertA_not_mem st.processed_photos (md5 c) _ hl
    · show (lookupA (insertA (insertA st.processed_urls (normalize_url u1)
          ⟨some (md5 c), u1, now⟩) (normalize_url u2) ⟨some (md5 c), u2, now⟩)
          (normalize_url u1)).map UrlRecord.photo_hash = some (some (md5 c))
      rw [lookupA_insertA]
      by_cases hn : normalize_url u2 = normalize_url u1
      · rw [if_pos hn]
        rfl
      · rw [if_neg hn, lookupA_insertA, if_pos rfl]
        rfl
    · show (lookupA (insertA (insertA st.processed_urls (normalize_url u1)
          ⟨some (md5 c), u1, now⟩) (normalize_url u2) ⟨some (md5 c), u2, now⟩)
          (normalize_url u2)).map UrlRecord.photo_hash = some (some (md5 c))
      rw [lookupA_insertA, if_pos rfl]
      rfl

/-- Witness for C8 at two concrete distinct locators fetching identical bytes
into an empty store. -/
theorem C8_witness :
    countA (scrape_photos_core fetch_same md5c 0 empty_store [urlA, urlB]).1.processed_photos
      (md5c "CC") = 1 ∧
    (lookupA (scrape_photos_core fetch_same md5c 0 empty_store [urlA, urlB]).1.processed_urls
      (normalize_url urlA)).map UrlRecord.photo_hash = some (some (md5c "CC")) ∧
    (lookupA (scrape_photos_core fetch_same md5c 0 empty_store [urlA, urlB]).1.processed_urls
      (normalize_url urlB)).map UrlRecord.photo_hash = some (some (md5c "CC")) ∧
    (scrape_photos_core fetch_same md5c 0 empty_store [urlA, urlB]).2 = [filename_for 0 0] :=
  C8_one_record_per_hash.2.2 fetch_same md5c 0 empty_store urlA urlB "image/jpeg" "image/jpeg"
    "CC" (by decide) (by decide) (by decide) (by decide) (by decide) (by decide) (by decide) rfl

/-! ### Lock discipline lemmas -/

theorem scrape_body_ran_lock (fetch : String → FetchRes) (md5 : String → String) (now : Nat)
    (intr : Option Nat) (st : Store) (urls : List String) (d : DiskState) :
    (scrape_photos_body fetch md5 now intr st urls d).ran = true ∧
    (scrape_photos_body fetch md5 now intr st urls d).disk.scraperLock = none := by
  unfold scrape_photos_body scrape_finish
  by_cases h1 : urls.isEmpty
  · simp [h1]
  · by_cases h2 : (urls.filter (fun u => !(is_url_processed st u))).isEmpty
    · simp [h1, h2]
    · cases intr with
      | none => simp [h1, h2]
      | some k =>
        by_cases h3 : k < (urls.filter (fun u => !(is_url_processed st u))).length
        · simp [h1, h2, h3]
        · simp [h1, h2, h3]

theorem scrape_body_raised_files (fetch : String → FetchRes) (md5 : String → String) (now : Nat)
    (intr : Option Nat) (st : Store) (urls : List String) (d : DiskState) :
    (scrape_photos_body fetch md5 now intr st urls d).raised = true →
    (scrape_photos_body fetch md5 now intr st urls d).disk.urlsFile = d.urlsFile ∧
    (scrape_photos_body fetch md5 now intr st urls d).disk.photosFile = d.photosFile := by
  unfold scrape_photos_body scrape_finish
  by_cases h1 : urls.isEmpty
  · simp [h1]
  · by_cases h2 : (urls.filter (fun u => !(is_url_processed st u))).isEmpty
    · simp [h1, h2]
    · cases intr with
      | none => simp [h1, h2]
      | some k =>
        by_cases h3 : k < (urls.filter (fun u => !(is_url_processed st u))).length
        · simp [h1, h2, h3]
        · simp [h1, h2, h3]

/-- Claim C4 (amended): whenever the pass actually runs (the lock was acquired)
the lock file is removed before control returns, whether or not an exception
escaped; a skipped pass changes nothing at all; but the dedup-store flush does
not survive an escaping exception: a raised pass returns with both store files
exactly as they were on disk before the pass, losing the in-memory mutations. -/
theorem C4_lock_released_flush_lost (alive : Nat → Bool) (myPid : Nat)
    (fetch : String → FetchRes) (md5 : String → String) (now : Nat)
    (intr : Option Nat) (st : Store) (urls : List String) (d : DiskState) :
    ((scrape_photos_fs alive myPid fetch md5 now intr st urls d).ran = true →
      (scrape_photos_fs alive myPid fetch md5 now intr st urls d).disk.scraperLock = none) ∧
    ((scrape_photos_fs alive myPid fetch md5 now intr st urls d).ran = false →
      scrape_photos_fs alive myPid fetch md5 now intr st urls d = ⟨d, false, false, []⟩) ∧
    ((scrape_photos_fs alive myPid fetch md5 now intr st urls d).raised = true →
      (scrape_photos_fs alive myPid fetch md5 now intr st urls d).disk.urlsFile = d.urlsFile ∧
      (scrape_photos_fs alive myPid fetch md5 now intr st urls d).disk.photosFile =
        d.photosFile) := by
  unfold scrape_photos_fs
  cases hL : d.scraperLock with
  | none =>
    refine ⟨fun _ => (scrape_body_ran_lock fetch md5 now intr st urls _).2, ?_, ?_⟩
    · intro h
      rw [(scrape_body_ran_lock fetch md5 now intr st urls _).1] at h
      simp at h
    · exact scrape_body_raised_files fetch md5 now intr st urls _
  | some lc =>
    cases lc with
    | invalid =>
      refine ⟨fun _ => (scrape_body_ran_lock fetch md5 now intr st urls _).2, ?_, ?_⟩
      · intro h
        rw [(scrape_body_ran_lock fetch md5 now intr st urls _).1] at h
        simp at h
      · exact scrape_body_raised_files fetch md5 now intr st urls _
    | pid p =>
      by_cases ha : alive p
      · simp [ha]
      · simp only [ha, Bool.false_eq_true, if_false, ite_false]
        refine ⟨fun _ => (scrape_body_ran_lock fetch md5 now intr st urls _).2, ?_, ?_⟩
        · intro h
          rw [(scrape_body_ran_lock fetch md5 now intr st urls _).1] at h
          simp at h
        · exact scrape_body_raised_files fetch md5 now intr st urls _

/-- Witness for C4_lock_released_flush_lost at the concrete interrupted run of
the C4 analysis: the lock is released and both files stay unchanged. -/
theorem C4_witness :
    (scrape_photos_fs no_process_alive 1 fetch2 md5c 0 (some 0) empty_store [urlA]
        empty_disk).disk.scraperLock = none ∧
    (scrape_photos_fs no_process_alive 1 fetch2 md5c 0 (some 0) empty_store [urlA]
        empty_disk).disk.urlsFile = empty_disk.urlsFile :=
  ⟨(C4_lock_released_flush_lost no_process_alive 1 fetch2 md5c 0 (some 0) empty_store [urlA]
      empty_disk).1 (by decide),
   ((C4_lock_released_flush_lost no_process_alive 1 fetch2 md5c 0 (some 0) empty_store [urlA]
      empty_disk).2.2 (by decide)).1⟩

/-- Claim C2 (amended): the scrape_photos lock path behaves as the claim says -
a live recorded pid makes the pass skip with no mutation at all, a dead
recorded pid is reclaimed and the pass proceeds (ending with the lock
released); but run_sync_once skips on the mere existence of either lock file,
with no liveness check and no reclamation. -/
theorem C2_lock_reclaim (alive : Nat → Bool) (myPid : Nat)
    (fetch : String → FetchRes) (md5 : String → String) (now : Nat)
    (intr : Option Nat) (notifOk : Bool) (st : Store) (urls : List String)
    (d : DiskState) (p : Nat) :
    (d.scraperLock = some (.pid p) → alive p = true →
      scrape_photos_fs alive myPid fetch md5 now intr st urls d = ⟨d, false, false, []⟩) ∧
    (d.scraperLock = some (.pid p) → alive p = false →
      (scrape_photos_fs alive myPid fetch md5 now intr st urls d).ran = true ∧
      (scrape_photos_fs alive myPid fetch md5 now intr st urls d).disk.scraperLock = none) ∧
    (d.scraperLock.isSome = true ∨ d.backgroundLock.isSome = true →
      run_sync_once alive myPid fetch md5 now intr notifOk urls d =
        ⟨d, false, false, false, 0⟩) := by
  refine ⟨?_, ?_, ?_⟩
  · intro hL ha
    unfold scrape_photos_fs
    rw [hL]
    simp [ha]
  · intro hL ha
    unfold scrape_photos_fs
    rw [hL]
    simp only [ha, Bool.false_eq_true, if_false, ite_false]
    exact scrape_body_ran_lock fetch md5 now intr st urls _
  · intro hd
    unfold run_sync_once
    cases hs : d.scraperLock.isSome with
    | true => simp [hs]
    | false =>
      have hb : d.backgroundLock.isSome = true := by
        rcases hd with h | h
        · rw [hs] at h
          simp at h
        · exact h
      simp [hs, hb]

/-- Witness for C2_lock_reclaim: a dead-pid scraper lock is reclaimed by
scrape_photos (the pass runs and releases the lock), while run_sync_once
skips on the same disk state. -/
theorem C2_witness :
    ((scrape_photos_fs no_process_alive 1 fetch1 md5c 0 none empty_store []
        dead_scraper_lock_disk).ran = true ∧
      (scrape_photos_fs no_process_alive 1 fetch1 md5c 0 none empty_store []
        dead_scraper_lock_disk).disk.scraperLock = none) ∧
    run_sync_once no_process_alive 1 fetch1 md5c 0 none true [] dead_scraper_lock_disk =
      ⟨dead_scraper_lock_disk, false, false, false, 0⟩ :=
  ⟨(C2_lock_reclaim no_process_alive 1 fetch1 md5c 0 none true empty_store []
      dead_scraper_lock_disk 7).2.1 rfl rfl,
   (C2_lock_reclaim no_process_alive 1 fetch1 md5c 0 none true empty_store []
      dead_scraper_lock_disk 7).2.2 (Or.inl rfl)⟩

/-! ### Migration lemmas -/

theorem insertA_ne_nil {α : Type} (l : List (String × α)) (k : String) (v : α) :
    insertA l k v ≠ [] := by
  cases l with
  | nil => simp [insertA]
  | cons p rest =>
    obtain ⟨a, b⟩ := p
    unfold insertA
    split <;> simp

theorem migrate_fold_photos (now : Nat) :
    ∀ (ps : List (String × PhotoRecord)) (st : Store),
    (migrate_fold now ps st).processed_photos = st.processed_photos := by
  intro ps
  induction ps with
  | nil => intro st; rfl
  | cons p rest ih =>
    intro st
    obtain ⟨h, pd⟩ := p
    unfold migrate_fold
    cases pd.url with
    | none => exact ih st
    | some u => exact ih _

theorem migrate_fold_urls_ne_nil (now : Nat) :
    ∀ (ps : List (String × PhotoRecord)) (st : Store),
    st.processed_urls ≠ [] → (migrate_fold now ps st).processed_urls ≠ [] := by
  intro ps
  induction ps with
  | nil => intro st h; exact h
  | cons p rest ih =>
    intro st h
    obtain ⟨hh, pd⟩ := p
    unfold migrate_fold
    cases pd.url with
    | none => exact ih st h
    | some u => exact ih _ (insertA_ne_nil _ _ _)

theorem migrate_fold_id_of_no_url (now : Nat) :
    ∀ (ps : List (String × PhotoRecord)) (st : Store),
    (∀ p ∈ ps, p.2.url = none) → migrate_fold now ps st = st := by
  intro ps
  induction ps with
  | nil => intro st _; rfl
  | cons p rest ih =>
    intro st h
    obtain ⟨hh, pd⟩ := p
    unfold migrate_fold
    have hu : pd.url = none := h (hh, pd) (List.mem_cons_self _ _)
    rw [hu]
    exact ih st (fun q hq => h q (List.mem_cons_of_mem _ hq))

theorem migrate_fold_urls_ne_nil_of_url (now : Nat) :
    ∀ (ps : List (String × PhotoRecord)) (st : Store),
    (∃ p ∈ ps, (p.2.url).isSome = true) → (migrate_fold now ps st).processed_urls ≠ [] := by
  intro ps
  induction ps with
  | nil =>
    intro st h
    obtain ⟨p, hp, _⟩ := h
    exact absurd hp (List.not_mem_nil p)
  | cons p rest ih =>
    intro st h
    obtain ⟨hh, pd⟩ := p
    unfold migrate_fold
    cases hu : pd.url with
    | some u => exact migrate_fold_urls_ne_nil now rest _ (insertA_ne_nil _ _ _)
    | none =>
      obtain ⟨q, hq, hqs⟩ := h
      rcases List.mem_cons.mp hq with he | hm
      · subst he
        rw [hu] at hqs
        simp at hqs
      · exact ih st ⟨q, hm, hqs⟩

/-- Claim C5 (amended): the startup migration is idempotent and runs at most
once, but its guard is the reverse of the claim wording: it changes the store
exactly when the locator-keyed store is empty and some hash-keyed photo record
carries an embedded locator link, and what it populates is the locator-to-hash
mapping from those photo records. -/
theorem C5_migration_once :
    (∀ (n1 n2 : Nat) (st : Store),
      migrate_existing_urls n2 (migrate_existing_urls n1 st) = migrate_existing_urls n1 st) ∧
    (∀ (now : Nat) (st : Store),
      migrate_existing_urls now st ≠ st ↔
        st.processed_urls = [] ∧ ∃ p ∈ st.processed_photos, (p.2.url).isSome = true) := by
  constructor
  · intro n1 n2 st
    by_cases hg : (st.processed_urls.isEmpty && !st.processed_photos.isEmpty) = true
    · have h1 : migrate_existing_urls n1 st = migrate_fold n1 st.processed_photos st := by
        unfold migrate_existing_urls
        rw [if_pos hg]
      rw [h1]
      set r := migrate_fold n1 st.processed_photos st with hr
      by_cases hru : r.processed_urls.isEmpty = true
      · have hnone : ∀ p ∈ st.processed_photos, p.2.url = none := by
          intro p hp
          cases hu : p.2.url with
          | none => rfl
          | some u =>
            exfalso
            have := migrate_fold_urls_ne_nil_of_url n1 st.processed_photos st
              ⟨p, hp, by rw [hu]; rfl⟩
            rw [← hr] at this
            exact this (List.isEmpty_iff.mp hru)
        have hid1 : r = st := by
          rw [hr]
          exact migrate_fold_id_of_no_url n1 st.processed_photos st hnone
        rw [hid1]
        unfold migrate_existing_urls
        rw [if_pos hg]
        exact migrate_fold_id_of_no_url n2 st.processed_photos st hnone
      · unfold migrate_existing_urls
        rw [if_neg]
        intro hc
        have hc' : r.processed_urls.isEmpty = true ∧ (!r.processed_photos.isEmpty) = true := by
          simpa using hc
        exact hru hc'.1
    · have h1 : migrate_existing_urls n1 st = st := by
        unfold migrate_existing_urls
        rw [if_neg hg]
      rw [h1]
      unfold migrate_existing_urls
      rw [if_neg hg]
  · intro now st
    constructor
    · intro hne
      by_cases hg : (st.processed_urls.isEmpty && !st.processed_photos.isEmpty) = true
      · have hg' : st.processed_urls.isEmpty = true ∧ (!st.processed_photos.isEmpty) = true := by
          simpa using hg
        have hu : st.processed_urls = [] := List.isEmpty_iff.mp hg'.1
        refine ⟨hu, ?_⟩
        by_contra hno
        push_neg at hno
        have hnone : ∀ p ∈ st.processed_photos, p.2.url = none := by
          intro p hp
          cases hup : p.2.url with
          | none => rfl
          | some u =>
            exfalso
            have := hno p hp
            rw [hup] at this
            simp at this
        have : migrate_existing_urls now st = st := by
          unfold migrate_existing_urls
          rw [if_pos hg]
          exact migrate_fold_id_of_no_url now st.processed_photos st hnone
        exact hne this
      · have : migrate_existing_urls now st = st := by
          unfold migrate_existing_urls
          rw [if_neg hg]
        exact absurd this hne
    · rintro ⟨hu, p, hp, hps⟩
      have hg : (st.processed_urls.isEmpty && !st.processed_photos.isEmpty) = true := by
        have h1 : st.processed_urls.isEmpty = true := List.isEmpty_iff.mpr hu
        have h2 : st.processed_photos ≠ [] := by
          intro he
          rw [he] at hp
          exact List.not_mem_nil p hp
        simp [h1, List.isEmpty_iff, h2]
      have heq : migrate_existing_urls now st = migrate_fold now st.processed_photos st := by
        unfold migrate_existing_urls
        rw [if_pos hg]
      rw [heq]
      intro hc
      have := migrate_fold_urls_ne_nil_of_url now st.processed_photos st ⟨p, hp, hps⟩
      rw [hc, hu] at this
      exact this rfl

/-! ### URL parsing lemmas: the path is independent of the appended query -/

theorem takeUntil_cons (sep c : Char) (cs : List Char) :
    takeUntil sep (c :: cs) = if c = sep then [] else c :: takeUntil sep cs := rfl

theorem splitNetloc_cons (c : Char) (cs : List Char) :
    splitNetloc (c :: cs) =
      if (c = '/' || c = '?' || c = '#') then ([], c :: cs)
      else (c :: (splitNetloc cs).1, (splitNetloc cs).2) := rfl

theorem schemeRest_cons (c : Char) (cs : List Char) :
    schemeRest (c :: cs) =
      if c = ':' then some cs
      else if scheme_char c then schemeRest cs else none := rfl

theorem dropScheme_cons (c : Char) (cs : List Char) :
    dropScheme (c :: cs) =
      if c.isAlpha then (schemeRest cs).getD (c :: cs) else c :: cs := rfl

theorem takeUntil_of_not_mem (sep : Char) : ∀ (l : List Char), sep ∉ l → takeUntil sep l = l := by
  intro l
  induction l with
  | nil => intro _; rfl
  | cons c cs ih =>
    intro h
    have h1 : ¬ c = sep := by
      intro he
      exact h (he ▸ List.mem_cons_self c cs)
    have h2 : sep ∉ cs := fun hm => h (List.mem_cons_of_mem c hm)
    rw [takeUntil_cons, if_neg h1, ih h2]

theorem takeUntil_append (sep : Char) : ∀ (a b : List Char),
    takeUntil sep (a ++ b) =
      if sep ∈ a then takeUntil sep a else a ++ takeUntil sep b := by
  intro a
  induction a with
  | nil => intro b; simp
  | cons c cs ih =>
    intro b
    show takeUntil sep (c :: (cs ++ b)) = _
    by_cases hc : c = sep
    · rw [takeUntil_cons, if_pos hc, if_pos (List.mem_cons.mpr (Or.inl hc.symm)),
        takeUntil_cons, if_pos hc]
    · rw [takeUntil_cons, if_neg hc, ih]
      by_cases hm : sep ∈ cs
      · rw [if_pos hm, if_pos (List.mem_cons_of_mem c hm), takeUntil_cons, if_neg hc]
      · have hnotm : sep ∉ c :: cs := by
          intro hmm
          rcases List.mem_cons.mp hmm with he | hin
          · exact hc he.symm
          · exact hm hin
        rw [if_neg hm, if_neg hnotm]
        rfl

theorem pathOf_append_q : ∀ (r x : List Char), pathOf (r ++ '?' :: x) = pathOf r := by
  intro r x
  unfold pathOf
  by_cases hh : '#' ∈ r
  · rw [takeUntil_append '#' r ('?' :: x), if_pos hh]
  · rw [takeUntil_append '#' r ('?' :: x), if_neg hh]
    rw [takeUntil_of_not_mem '#' r hh]
    have hq : takeUntil '#' ('?' :: x) = '?' :: takeUntil '#' x := by
      rw [takeUntil_cons, if_neg (by decide : ¬ '?' = '#')]
    rw [hq]
    by_cases hqr : '?' ∈ r
    · rw [takeUntil_append '?' r ('?' :: takeUntil '#' x), if_pos hqr]
    · rw [takeUntil_append '?' r ('?' :: takeUntil '#' x), if_neg hqr]
      rw [takeUntil_of_not_mem '?' r hqr]
      rw [takeUntil_cons, if_pos rfl, List.append_nil]

theorem schemeRest_append_q : ∀ (a x : List Char),
    schemeRest (a ++ '?' :: x) = (schemeRest a).map (fun r => r ++ '?' :: x) := by
  intro a x
  induction a with
  | nil =>
    show schemeRest ('?' :: x) = (schemeRest []).map _
    rw [schemeRest_cons, if_neg (by decide : ¬ '?' = ':'),
      if_neg (by decide : ¬ scheme_char '?' = true)]
    rfl
  | cons c cs ih =>
    show schemeRest (c :: (cs ++ '?' :: x)) = (schemeRest (c :: cs)).map _
    rw [schemeRest_cons, schemeRest_cons]
    by_cases hc : c = ':'
    · rw [if_pos hc, if_pos hc]
      rfl
    · rw [if_neg hc, if_neg hc]
      by_cases hsc : scheme_char c = true
      · rw [if_pos hsc, if_pos hsc, ih]
      · rw [if_neg hsc, if_neg hsc]
        rfl

theorem dropScheme_append_q : ∀ (a x : List Char),
    dropScheme (a ++ '?' :: x) = dropScheme a ++ '?' :: x := by
  intro a x
  cases a with
  | nil =>
    show dropScheme ('?' :: x) = dropScheme [] ++ '?' :: x
    rw [dropScheme_cons, if_neg (by decide : ¬ ('?'.isAlpha) = true)]
    rfl
  | cons c cs =>
    show dropScheme (c :: (cs ++ '?' :: x)) = dropScheme (c :: cs) ++ '?' :: x
    rw [dropScheme_cons, dropScheme_cons]
    by_cases ha : c.isAlpha = true
    · rw [if_pos ha, if_pos ha, schemeRest_append_q]
      cases hs : schemeRest cs with
      | none => rfl
      | some r => rfl
    · rw [if_neg ha, if_neg ha]
      rfl

theorem splitNetloc_append_q : ∀ (r x : List Char),
    splitNetloc (r ++ '?' :: x) = ((splitNetloc r).1, (splitNetloc r).2 ++ '?' :: x) := by
  intro r x
  induction r with
  | nil =>
    show splitNetloc ('?' :: x) = _
    rw [splitNetloc_cons, if_pos (by decide : ('?' = '/' || '?' = '?' || '?' = '#') = true)]
    rfl
  | cons c cs ih =>
    show splitNetloc (c :: (cs ++ '?' :: x)) = _
    rw [splitNetloc_cons, splitNetloc_cons]
    by_cases hd : (c = '/' || c = '?' || c = '#') = true
    · rw [if_pos hd, if_pos hd]
      rfl
    · rw [if_neg hd, if_neg hd]
      simp only [ih]

theorem removeUnsafe_append : ∀ (a b : List Char),
    removeUnsafe (a ++ b) = removeUnsafe a ++ removeUnsafe b := by
  intro a b
  unfold removeUnsafe
  exact List.filter_append a b

theorem removeUnsafe_q (x : List Char) : removeUnsafe ('?' :: x) = '?' :: removeUnsafe x := by
  unfold removeUnsafe
  rw [List.filter_cons_of_pos]
  decide

/-- The extracted path (and parse success) depends only on what precedes the
appended query: appending different queries after a `?` gives identical
urlparse_path results. -/
theorem urlparse_path_query_indep : ∀ (b q1 q2 : List Char),
    urlparse_path (b ++ '?' :: q1) = urlparse_path (b ++ '?' :: q2) := by
  intro b q1 q2
  unfold urlparse_path
  rw [removeUnsafe_append b ('?' :: q1), removeUnsafe_append b ('?' :: q2),
    removeUnsafe_q q1, removeUnsafe_q q2, dropScheme_append_q, dropScheme_append_q]
  cases hB : dropScheme (removeUnsafe b) with
  | nil =>
    simp only [List.nil_append]
    rw [if_neg (by simp [List.take]), if_neg (by simp [List.take])]
    show some (pathOf ([] ++ '?' :: removeUnsafe q1)) = some (pathOf ([] ++ '?' :: removeUnsafe q2))
    rw [pathOf_append_q [] (removeUnsafe q1), pathOf_append_q [] (removeUnsafe q2)]
  | cons c1 B' =>
    cases B' with
    | nil =>
      simp only [List.cons_append, List.nil_append]
      rw [if_neg (by simp [List.take]), if_neg (by simp [List.take])]
      show some (pathOf ([c1] ++ '?' :: removeUnsafe q1)) =
        some (pathOf ([c1] ++ '?' :: removeUnsafe q2))
      rw [pathOf_append_q [c1] (removeUnsafe q1), pathOf_append_q [c1] (removeUnsafe q2)]
    | cons c2 B2 =>
      simp only [List.cons_append]
      by_cases h2 : ([c1, c2] : List Char) = ['/', '/']
      · have ht1 : (c1 :: c2 :: (B2 ++ '?' :: removeUnsafe q1)).take 2 = ['/', '/'] := by
          simp only [List.take]
          exact h2
        have ht2 : (c1 :: c2 :: (B2 ++ '?' :: removeUnsafe q2)).take 2 = ['/', '/'] := by
          simp only [List.take]
          exact h2
        rw [if_pos ht1, if_pos ht2]
        simp only [List.drop]
        rw [splitNetloc_append_q B2 (removeUnsafe q1), splitNetloc_append_q B2 (removeUnsafe q2)]
        simp only
        rw [pathOf_append_q (splitNetloc B2).2 (removeUnsafe q1),
          pathOf_append_q (splitNetloc B2).2 (removeUnsafe q2)]
      · have ht1 : ¬ (c1 :: c2 :: (B2 ++ '?' :: removeUnsafe q1)).take 2 = ['/', '/'] := by
          simp only [List.take]
          exact h2
        have ht2 : ¬ (c1 :: c2 :: (B2 ++ '?' :: removeUnsafe q2)).take 2 = ['/', '/'] := by
          simp only [List.take]
          exact h2
        rw [if_neg ht1, if_neg ht2]
        show some (pathOf ((c1 :: c2 :: B2) ++ '?' :: removeUnsafe q1)) =
          some (pathOf ((c1 :: c2 :: B2) ++ '?' :: removeUnsafe q2))
        rw [pathOf_append_q (c1 :: c2 :: B2) (removeUnsafe q1),
          pathOf_append_q (c1 :: c2 :: B2) (removeUnsafe q2)]

theorem str_data_append (a b : String) : (a ++ b).data = a.data ++ b.data := by
  cases a
  cases b
  rfl

/-- Claim C9 (amended): normalization is a pure total function (it is a Lean
def); for every locator pair differing only in the appended query the parser
result is literally identical, so whenever parsing succeeds (no unbalanced
bracket netloc) the two locators normalize identically.  On a parse failure
the fallback returns the raw locator, which is where the unrestricted claim
fails. -/
theorem C9_query_invariance :
    (∀ (base q1 q2 : String),
      urlparse_path (base ++ "?" ++ q1).data = urlparse_path (base ++ "?" ++ q2).data) ∧
    (∀ (base q1 q2 : String),
      (urlparse_path (base ++ "?" ++ q1).data).isSome = true →
      normalize_url (base ++ "?" ++ q1) = normalize_url (base ++ "?" ++ q2)) := by
  have hdata : ∀ (base q : String), (base ++ "?" ++ q).data = base.data ++ '?' :: q.data := by
    intro base q
    have hq : ("?" : String).data = ['?'] := rfl
    rw [str_data_append, str_data_append, hq, List.append_assoc]
    rfl
  have hmain : ∀ (base q1 q2 : String),
      urlparse_path (base ++ "?" ++ q1).data = urlparse_path (base ++ "?" ++ q2).data := by
    intro base q1 q2
    rw [hdata, hdata]
    exact urlparse_path_query_indep base.data q1.data q2.data
  refine ⟨hmain, ?_⟩
  intro base q1 q2 hsome
  unfold normalize_url
  cases h1 : urlparse_path (base ++ "?" ++ q1).data with
  | none =>
    rw [h1] at hsome
    simp at hsome
  | some p =>
    have h2 : urlparse_path (base ++ "?" ++ q2).data = some p := by
      rw [← hmain base q1 q2, h1]
    rw [h2]

/-- Witness for C9_query_invariance at a well-formed pair of locators differing
only in signing query parameters. -/
theorem C9_witness :
    normalize_url ("https://cvws.icloud-content.com/S/X/F.JPG" ++ "?" ++ "o=1") =
      normalize_url ("https://cvws.icloud-content.com/S/X/F.JPG" ++ "?" ++ "o=2") :=
  C9_query_invariance.2 "https://cvws.icloud-content.com/S/X/F.JPG" "o=1" "o=2" (by decide)

/-! ### Notifier batch lemmas -/

theorem chunksB_ne_nil {α : Type} : ∀ (n b : Nat) (l : List α), l.length ≤ n →
    ∀ c ∈ chunksB (b + 1) l, c ≠ [] := by
  intro n
  induction n with
  | zero =>
    intro b l hl c hc
    have : l = [] := List.length_eq_zero.mp (Nat.le_zero.mp hl)
    subst this
    rw [show chunksB (b + 1) ([] : List α) = [] from by rw [chunksB]] at hc
    exact absurd hc (List.not_mem_nil c)
  | succ n ih =>
    intro b l hl c hc
    cases l with
    | nil =>
      rw [show chunksB (b + 1) ([] : List α) = [] from by rw [chunksB]] at hc
      exact absurd hc (List.not_mem_nil c)
    | cons x xs =>
      have hch : chunksB (b + 1) (x :: xs) =
          ((x :: xs).take (b + 1)) :: chunksB (b + 1) ((x :: xs).drop (b + 1)) := by
        rw [chunksB]
      rw [hch] at hc
      rcases List.mem_cons.mp hc with he | hm
      · subst he
        simp [List.take]
      · refine ih b ((x :: xs).drop (b + 1)) ?_ c hm
        have := List.length_drop (b + 1) (x :: xs)
        rw [this]
        simp only [List.length_cons] at hl ⊢
        omega

theorem send_in_batches_true {b : Nat} (l : List String) :
    send_photos_in_batches true l (b + 1) = true := by
  unfold send_photos_in_batches
  rw [List.all_eq_true]
  intro c hc
  have hne : c ≠ [] := chunksB_ne_nil l.length b l (Nat.le_refl _) c hc
  unfold send_photos
  rw [if_neg (by simpa [List.isEmpty_iff] using hne)]

theorem send_in_batches_false {b : Nat} (l : List String) (hl : l ≠ []) :
    send_photos_in_batches false l (b + 1) = false := by
  cases l with
  | nil => exact absurd rfl hl
  | cons x xs =>
    unfold send_photos_in_batches
    rw [show chunksB (b + 1) (x :: xs) =
        ((x :: xs).take (b + 1)) :: chunksB (b + 1) ((x :: xs).drop (b + 1)) from by rw [chunksB]]
    rw [List.all_cons]
    have : send_photos false ((x :: xs).take (b + 1)) = false := by
      unfold send_photos
      rw [if_neg (by simp [List.take])]
    rw [this]
    rfl

theorem lookupA_map_val {α β : Type} (g : α → β) :
    ∀ (l : List (String × α)) (k : String),
    lookupA (l.map (fun p => (p.1, g p.2))) k = (lookupA l k).map g := by
  intro l
  induction l with
  | nil => intro k; rfl
  | cons p rest ih =>
    intro k
    obtain ⟨a, b⟩ := p
    show lookupA ((a, g b) :: rest.map _) k = _
    unfold lookupA
    by_cases h : a = k
    · rw [if_pos h, if_pos h]
      rfl
    · rw [if_neg h, if_neg h, ih]

/-! ### run_sync_once preserves already-recorded photo records -/

theorem migrate_photos_eq (now : Nat) (st : Store) :
    (migrate_existing_urls now st).processed_photos = st.processed_photos := by
  unfold migrate_existing_urls
  split
  · exact migrate_fold_photos now st.processed_photos st
  · rfl

theorem scrape_body_photos_preserved (fetch : String → FetchRes) (md5 : String → String)
    (now : Nat) (intr : Option Nat) (st : Store) (urls : List String) (d : DiskState)
    (k : String) (hst : st.processed_photos = d.photosFile)
    (h : (lookupA d.photosFile k).isSome = true) :
    lookupA (scrape_photos_body fetch md5 now intr st urls d).disk.photosFile k =
      lookupA d.photosFile k := by
  unfold scrape_photos_body scrape_finish
  by_cases h1 : urls.isEmpty
  · simp [h1]
  · by_cases h2 : (urls.filter (fun u => !(is_url_processed st u))).isEmpty
    · simp [h1, h2]
    · have hk : k ∈ keysA st.processed_photos := by
        rw [hst]
        exact (lookupA_isSome_iff_mem _ _).mp h
      have hp := run_urls_photos_preserved fetch md5 now
        (urls.filter (fun u => !(is_url_processed st u)))
        ⟨st, keysA st.processed_photos, []⟩ 0 k hk
      cases intr with
      | none =>
        simp only [h1, h2, Bool.false_eq_true, if_false, ite_false]
        rw [hp.1]
        show lookupA st.processed_photos k = _
        rw [hst]
      | some j =>
        by_cases h3 : j < (urls.filter (fun u => !(is_url_processed st u))).length
        · simp [h1, h2, h3]
        · simp only [h1, h2, h3, Bool.false_eq_true, if_false, ite_false]
          rw [hp.1]
          show lookupA st.processed_photos k = _
          rw [hst]

theorem scrape_fs_photos_preserved (alive : Nat → Bool) (myPid : Nat)
    (fetch : String → FetchRes) (md5 : String → String) (now : Nat) (intr : Option Nat)
    (st : Store) (urls : List String) (d : DiskState) (k : String)
    (hst : st.processed_photos = d.photosFile)
    (h : (lookupA d.photosFile k).isSome = true) :
    lookupA (scrape_photos_fs alive myPid fetch md5 now intr st urls d).disk.photosFile k =
      lookupA d.photosFile k := by
  unfold scrape_photos_fs
  cases hL : d.scraperLock with
  | none => exact scrape_body_photos_preserved fetch md5 now intr st urls _ k hst h
  | some lc =>
    cases lc with
    | invalid => exact scrape_body_photos_preserved fetch md5 now intr st urls _ k hst h
    | pid p =>
      by_cases ha : alive p
      · simp [ha]
      · simp only [ha, Bool.false_eq_true, if_false, ite_false]
        exact scrape_body_photos_preserved fetch md5 now intr st urls _ k hst h

/-- Claim C3 (amended): in the CLI entry-point pass the claim holds - if the
Notifier reports success every not-yet-emailed record (in particular every
hash included in the batch) is marked emailed, on a reported failure no record
changes, and the emailed flag never transitions from true to false.  The
background pass (run_sync_once) however preserves every already-recorded photo
record verbatim: it never marks a hash delivered, even when the Notifier
reports success for the batch it sent. -/
theorem C3_delivery_marking :
    (∀ (fileExists : String → Bool) (photos : List (String × PhotoRecord)),
      ((photos.filter (fun p => !p.2.emailed && fileExists p.2.filename)).map
          (fun p => p.2.filename)) ≠ [] →
      main_email_sync true fileExists photos = (main_email_mark photos, true)) ∧
    (∀ (fileExists : String → Bool) (photos : List (String × PhotoRecord)),
      main_email_sync false fileExists photos = (photos, false)) ∧
    (∀ (smtpOk : Bool) (fileExists : String → Bool) (photos : List (String × PhotoRecord))
        (k : String),
      (lookupA photos k).map PhotoRecord.emailed = some true →
      (lookupA (main_email_sync smtpOk fileExists photos).1 k).map PhotoRecord.emailed =
        some true) ∧
    (∀ (alive : Nat → Bool) (myPid : Nat) (fetch : String → FetchRes) (md5 : String → String)
        (now : Nat) (intr : Option Nat) (notifOk : Bool) (urls : List String)
        (disk : DiskState) (k : String),
      (lookupA disk.photosFile k).isSome = true →
      lookupA (run_sync_once alive myPid fetch md5 now intr notifOk urls
        disk).disk.photosFile k = lookupA disk.photosFile k) := by
  refine ⟨?_, ?_, ?_, ?_⟩
  · intro fe photos hne
    simp only [main_email_sync]
    rw [if_neg (by simpa [List.isEmpty_iff] using hne)]
    rw [if_pos (send_in_batches_true _)]
  · intro fe photos
    simp only [main_email_sync]
    by_cases h1 : ((photos.filter (fun p => !p.2.emailed && fe p.2.filename)).map
        (fun p => p.2.filename)).isEmpty = true
    · rw [if_pos h1]
    · rw [if_neg h1]
      have hne : (photos.filter (fun p => !p.2.emailed && fe p.2.filename)).map
          (fun p => p.2.filename) ≠ [] := by
        intro he
        rw [he] at h1
        exact h1 rfl
      rw [if_neg (by simp [send_in_batches_false _ hne])]
  · intro smtpOk fe photos k h
    simp only [main_email_sync]
    by_cases h1 : ((photos.filter (fun p => !p.2.emailed && fe p.2.filename)).map
        (fun p => p.2.filename)).isEmpty = true
    · rw [if_pos h1]
      exact h
    · rw [if_neg h1]
      by_cases h2 : send_photos_in_batches smtpOk ((photos.filter
          (fun p => !p.2.emailed && fe p.2.filename)).map (fun p => p.2.filename)) 5 = true
      · rw [if_pos h2]
        show (lookupA (main_email_mark photos) k).map PhotoRecord.emailed = some true
        unfold main_email_mark
        rw [lookupA_map_val mark_one photos k]
        cases hl : lookupA photos k with
        | none =>
          rw [hl] at h
          simp at h
        | some r =>
          rw [hl] at h
          have hr : r.emailed = true := by
            simpa using h
          show ((some r).map mark_one).map PhotoRecord.emailed = some true
          unfold mark_one
          simp [hr]
      · rw [if_neg h2]
        exact h
  · intro alive myPid fetch md5 now intr notifOk urls disk k h
    simp only [run_sync_once]
    by_cases h1 : disk.scraperLock.isSome = true
    · rw [if_pos h1]
    · rw [if_neg h1]
      by_cases h2 : disk.backgroundLock.isSome = true
      · rw [if_pos h2]
      · rw [if_neg h2]
        set d1 : DiskState :=
          { disk with backgroundLock := some ("background_sync_" ++ toString myPid) } with hd1
        set st0 : Store := ⟨d1.urlsFile, d1.photosFile⟩ with hst0
        set st1 : Store := migrate_existing_urls now st0 with hst1
        set d2 : DiskState := (if st1 = st0 then d1
          else { d1 with urlsFile := st1.processed_urls }) with hd2
        set r : ScrapeResult := scrape_photos_fs alive myPid fetch md5 now intr st1 urls d2
          with hr
        have hphotos2 : d2.photosFile = disk.photosFile := by
          rw [hd2]
          split
          · rfl
          · rfl
        have hstp : st1.processed_photos = d2.photosFile := by
          rw [hst1, migrate_photos_eq, hphotos2]
        have hpres : lookupA r.disk.photosFile k = lookupA d2.photosFile k := by
          rw [hr]
          exact scrape_fs_photos_preserved alive myPid fetch md5 now intr st1 urls d2 k hstp
            (by rw [hphotos2]; exact h)
        split
        · show lookupA r.disk.photosFile k = lookupA disk.photosFile k
          rw [hpres, hphotos2]
        · show lookupA r.disk.photosFile k = lookupA disk.photosFile k
          rw [hpres, hphotos2]

/-- Witness for C3_delivery_marking: with one concrete undelivered record whose
file exists, a successful CLI delivery marks the store. -/
theorem C3_witness :
    main_email_sync true all_files_exist photos1 = (main_email_mark photos1, true) :=
  C3_delivery_marking.1 all_files_exist photos1 (by decide)

end SkylightSync
